import Mathlib

/-!
Shallow embedding of the kargo promotion-orchestration core
(`internal/api/promote_subscribers_v1alpha1.go` and the `PromoteStage`
surface exercised by `internal/api/promote_stage_v1alpha1_test.go`).

External collaborators (project validator, stage reader, stage lister,
qualified-freight reader, resource creator) are modelled as oracle
functions bundled in a `Collab` record.  Each operation returns, besides
its result, the ordered trace of collaborator calls it made, so that
claims about "collaborator X is (never) invoked" are statements about
the trace.
-/

namespace Kargo

/-- An upstream-stage reference, `kargoapi.StageSubscription` (only the
`Name` field is consulted by this core). -/
structure StageSubscription where
  name : String
deriving DecidableEq, Repr

/-- `kargoapi.Subscriptions`: the subscription block of a stage spec,
holding the ordered list of upstream-stage references. -/
structure Subscriptions where
  upstreamStages : List StageSubscription
deriving DecidableEq, Repr

/-- A stage, `kargoapi.Stage`: identified by (namespace, name); its spec
carries an optional `Subscriptions` block (`s.Spec.Subscriptions` is a
pointer that may be nil, modelled as `Option`). -/
structure Stage where
  nspace : String
  name : String
  subscriptions : Option Subscriptions
deriving DecidableEq, Repr

/-- A freight record as seen by this core (contents opaque: the
orchestrator never inspects qualification evidence). -/
structure Freight where
  name : String
deriving DecidableEq, Repr

/-- A promotion request record: (target stage, freight reference). -/
structure Promotion where
  nspace : String
  stage : String
  freight : String
deriving DecidableEq, Repr

/-- Modelled from the spec: `kargo.NewPromotion` is not under `src/`;
§4.4 says it is pure construction of a Promotion from a target stage and
a freight identifier (the fresh identity, irrelevant to every claim, is
omitted). -/
def NewPromotion (stage : Stage) (freight : String) : Promotion :=
  ⟨stage.nspace, stage.name, freight⟩

/-- Connect error codes used by this core. -/
inductive Code where
  | invalidArgument
  | notFound
  | internal
deriving DecidableEq, Repr

/-- A connect error: a code plus a human-readable message. -/
structure ConnectErr where
  code : Code
  msg : String
deriving DecidableEq, Repr

/-- `errors.Errorf("Stage %q not found in namespace %q", stage, project)`. -/
def stageNotFoundMsg (stage project : String) : String :=
  "Stage \"" ++ stage ++ "\" not found in namespace \"" ++ project ++ "\""

/-- `errors.Errorf("no qualified Freight %q found in namespace %q", freight, project)`. -/
def noQualifiedFreightMsg (freight project : String) : String :=
  "no qualified Freight \"" ++ freight ++ "\" found in namespace \"" ++ project ++ "\""

/-- `fmt.Errorf("Stage %q has no subscribers", stage)`. -/
def noSubscribersMsg (stage : String) : String :=
  "Stage \"" ++ stage ++ "\" has no subscribers"

/-- One collaborator call, recorded in an operation's trace. -/
inductive Event where
  | validateProject (project : String)
  | getStage (nspace name : String)
  | getQualifiedFreight (nspace name : String) (candidates : List String)
  | listStages (nspace : String)
  | createPromotion (promo : Promotion)
deriving DecidableEq, Repr

/-- The collaborator interfaces consumed by the orchestrator (spec §6):
errors are message strings; "absent" results are `none`. -/
structure Collab where
  validateProject : String → Option ConnectErr
  getStage : String → String → Except String (Option Stage)
  listStages : String → Except String (List Stage)
  getQualifiedFreight : String → String → List String → Except String (Option Freight)
  createPromotion : Promotion → Option String

/-- The inner scan of `findStageSubscribers`: the loop over one listed
stage's `Spec.Subscriptions.UpstreamStages`, appending the stage once per
entry whose name equals the target's name (the loop has no break). -/
def matchUpstreams (s : Stage) (target : String) : List StageSubscription → List Stage
  | [] => []
  | u :: rest =>
      if u.name = target then s :: matchUpstreams s target rest
      else matchUpstreams s target rest

/-- The body of `findStageSubscribers`'s outer loop for one listed
stage: skip it when `Spec.Subscriptions` is nil, otherwise scan its
upstream entries via `matchUpstreams`. -/
def subscriberBlock (target : String) (s : Stage) : List Stage :=
  match s.subscriptions with
  | none => []
  | some subs => matchUpstreams s target subs.upstreamStages

/-- `findStageSubscribers`, given the namespace listing: the outer loop
over all listed stages, in listing order. -/
def findStageSubscribers (stage : Stage) : List Stage → List Stage
  | [] => []
  | s :: rest => subscriberBlock stage.name s ++ findStageSubscribers stage rest

/-- Whether a stage declares an upstream entry with the given name
(the condition under which `findStageSubscribers` includes it). -/
def hasUpstreamNamed (target : String) (s : Stage) : Bool :=
  match s.subscriptions with
  | none => false
  | some subs => subs.upstreamStages.any (fun u => u.name = target)

/-- How many of a stage's upstream entries bear the given name. -/
def upstreamHits (target : String) (s : Stage) : Nat :=
  match s.subscriptions with
  | none => 0
  | some subs => subs.upstreamStages.countP (fun u => u.name = target)

lemma mem_matchUpstreams {s x : Stage} {target : String} {us : List StageSubscription} :
    x ∈ matchUpstreams s target us ↔ x = s ∧ us.any (fun u => u.name = target) := by
  induction us with
  | nil => simp [matchUpstreams]
  | cons u rest ih =>
      by_cases h : u.name = target
      · simp [matchUpstreams, h, ih]
        intro hx
        simp [hx]
      · simp [matchUpstreams, h, ih]

lemma matchUpstreams_eq_replicate (s : Stage) (target : String)
    (us : List StageSubscription) :
    matchUpstreams s target us =
      List.replicate (us.countP (fun u => u.name = target)) s := by
  induction us with
  | nil => simp [matchUpstreams]
  | cons u rest ih =>
      by_cases h : u.name = target
      · simp [matchUpstreams, h, ih, List.countP_cons, List.replicate_succ]
      · simp [matchUpstreams, h, ih, List.countP_cons]

lemma subscriberBlock_eq_replicate (target : String) (s : Stage) :
    subscriberBlock target s = List.replicate (upstreamHits target s) s := by
  cases hs : s.subscriptions with
  | none => simp [subscriberBlock, upstreamHits, hs]
  | some subs =>
      simp [subscriberBlock, upstreamHits, hs, matchUpstreams_eq_replicate]

lemma mem_subscriberBlock {target : String} {s x : Stage} :
    x ∈ subscriberBlock target s ↔ x = s ∧ hasUpstreamNamed target s = true := by
  cases hs : s.subscriptions with
  | none => simp [subscriberBlock, hasUpstreamNamed, hs]
  | some subs =>
      simp [subscriberBlock, hasUpstreamNamed, hs, mem_matchUpstreams]

lemma mem_findStageSubscribers {a x : Stage} {l : List Stage} :
    x ∈ findStageSubscribers a l ↔ x ∈ l ∧ hasUpstreamNamed a.name x = true := by
  induction l with
  | nil => simp [findStageSubscribers]
  | cons s rest ih =>
      simp only [findStageSubscribers, List.mem_append, ih, List.mem_cons,
        mem_subscriberBlock]
      constructor
      · rintro (⟨hx, hup⟩ | ⟨hmem, hup⟩)
        · subst hx; exact ⟨Or.inl rfl, hup⟩
        · exact ⟨Or.inr hmem, hup⟩
      · rintro ⟨hx | hmem, hup⟩
        · subst hx; exact Or.inl ⟨rfl, hup⟩
        · exact Or.inr ⟨hmem, hup⟩

lemma count_findStageSubscribers (a x : Stage) (l : List Stage) :
    (findStageSubscribers a l).count x = l.count x * upstreamHits a.name x := by
  induction l with
  | nil => simp [findStageSubscribers]
  | cons s rest ih =>
      simp only [findStageSubscribers, List.count_append, ih, List.count_cons,
        subscriberBlock_eq_replicate, List.count_replicate]
      by_cases hx : s = x
      · subst hx
        simp [Nat.add_mul, Nat.add_comm]
      · simp [hx, Ne.symm hx]

/-- Output of the fan-out loop: the create events in order, the
successfully created promotions in order, and the per-subscriber write
failures in order. -/
structure LoopOut where
  events : List Event
  promos : List Promotion
  errs : List String
deriving DecidableEq, Repr

/-- The fan-out loop of `PromoteSubscribers` (lines 89–98): for each
subscriber in order, build a promotion and attempt the write; a failure
is recorded and the loop continues; a success is appended to the created
list. -/
def promoteLoop (c : Collab) (freight : String) : List Stage → LoopOut
  | [] => ⟨[], [], []⟩
  | sub :: rest =>
      let p := NewPromotion sub freight
      let out := promoteLoop c freight rest
      match c.createPromotion p with
      | some e => ⟨Event.createPromotion p :: out.events, out.promos, e :: out.errs⟩
      | none => ⟨Event.createPromotion p :: out.events, p :: out.promos, out.errs⟩

/-- Modelled from the spec: `validateProjectAndStageNonEmpty` is not
under `src/` (only its call sites are); §4.5 step 1 says "Validate
project and stageName are non-empty; fail with `InvalidArgument`
otherwise" — and the call site passes only project and stage.  The
message text is not specified; no claim depends on it. -/
def validateProjectAndStageNonEmpty (project stage : String) : Option ConnectErr :=
  if project = "" then some ⟨Code.invalidArgument, "project should not be empty"⟩
  else if stage = "" then some ⟨Code.invalidArgument, "stage should not be empty"⟩
  else none

/-- Result of `PromoteSubscribers`: the collaborator-call trace, the
response's promotion list (`none` when the response itself is nil, as on
every early-return path), and the returned error. -/
structure PSResult where
  trace : List Event
  promotions : Option (List Promotion)
  err : Option ConnectErr
deriving DecidableEq, Repr

/-- `PromoteSubscribers`: validate inputs, validate the project
(collaborator error propagated verbatim), fetch the stage, fetch the
freight qualified for exactly `[stageName]`, resolve subscribers (the
namespace listing inside `findStageSubscribers`), fail NotFound on an
empty subscriber list, otherwise fan out writes and aggregate failures
with `errors.Join` alongside the successes. -/
def promoteSubscribers (c : Collab) (project stageName freightName : String) : PSResult :=
  match validateProjectAndStageNonEmpty project stageName with
  | some e => ⟨[], none, some e⟩
  | none =>
  match c.validateProject project with
  | some e => ⟨[Event.validateProject project], none, some e⟩
  | none =>
  match c.getStage project stageName with
  | .error e =>
      ⟨[Event.validateProject project, Event.getStage project stageName],
        none, some ⟨Code.internal, e⟩⟩
  | .ok none =>
      ⟨[Event.validateProject project, Event.getStage project stageName],
        none, some ⟨Code.notFound, stageNotFoundMsg stageName project⟩⟩
  | .ok (some stage) =>
  match c.getQualifiedFreight project freightName [stageName] with
  | .error e =>
      ⟨[Event.validateProject project, Event.getStage project stageName,
        Event.getQualifiedFreight project freightName [stageName]],
        none, some ⟨Code.internal, e⟩⟩
  | .ok none =>
      ⟨[Event.validateProject project, Event.getStage project stageName,
        Event.getQualifiedFreight project freightName [stageName]],
        none, some ⟨Code.notFound, noQualifiedFreightMsg freightName project⟩⟩
  | .ok (some _) =>
  match c.listStages project with
  | .error e =>
      ⟨[Event.validateProject project, Event.getStage project stageName,
        Event.getQualifiedFreight project freightName [stageName],
        Event.listStages project],
        none, some ⟨Code.internal, e⟩⟩
  | .ok allStages =>
      let pre := [Event.validateProject project, Event.getStage project stageName,
        Event.getQualifiedFreight project freightName [stageName],
        Event.listStages project]
      let subs := findStageSubscribers stage allStages
      if subs = [] then
        ⟨pre, none, some ⟨Code.notFound, noSubscribersMsg stageName⟩⟩
      else
        let out := promoteLoop c freightName subs
        if out.errs = [] then
          ⟨pre ++ out.events, some out.promos, none⟩
        else
          ⟨pre ++ out.events, some out.promos,
            some ⟨Code.internal, String.intercalate "\n" out.errs⟩⟩

/-- Result of `PromoteStage`: the collaborator-call trace, the created
promotion when the call succeeded, and the returned error. -/
structure PStResult where
  trace : List Event
  promotion : Option Promotion
  err : Option ConnectErr
deriving DecidableEq, Repr

/-- The upstream stage names a stage declares (empty when the
subscription block is absent). -/
def upstreamNames (stage : Stage) : List String :=
  match stage.subscriptions with
  | none => []
  | some subs => subs.upstreamStages.map StageSubscription.name

/-- Modelled from the spec: the body of `PromoteStage` is not under
`src/` (only its test is); §4.5 says steps 1–3 are those of
`PromoteSubscribers`, step 4's qualification candidate set is the target
stage's own name plus, if it subscribes to upstream stages, those
upstream stage names, step 5 has the same failure modes, and step 6
builds and persists a single Promotion against the target stage. -/
def promoteStage (c : Collab) (project stageName freightName : String) : PStResult :=
  match validateProjectAndStageNonEmpty project stageName with
  | some e => ⟨[], none, some e⟩
  | none =>
  match c.validateProject project with
  | some e => ⟨[Event.validateProject project], none, some e⟩
  | none =>
  match c.getStage project stageName with
  | .error e =>
      ⟨[Event.validateProject project, Event.getStage project stageName],
        none, some ⟨Code.internal, e⟩⟩
  | .ok none =>
      ⟨[Event.validateProject project, Event.getStage project stageName],
        none, some ⟨Code.notFound, stageNotFoundMsg stageName project⟩⟩
  | .ok (some stage) =>
      let candidates := stageName :: upstreamNames stage
      match c.getQualifiedFreight project freightName candidates with
      | .error e =>
          ⟨[Event.validateProject project, Event.getStage project stageName,
            Event.getQualifiedFreight project freightName candidates],
            none, some ⟨Code.internal, e⟩⟩
      | .ok none =>
          ⟨[Event.validateProject project, Event.getStage project stageName,
            Event.getQualifiedFreight project freightName candidates],
            none, some ⟨Code.notFound, noQualifiedFreightMsg freightName project⟩⟩
      | .ok (some _) =>
          let promo := NewPromotion stage freightName
          match c.createPromotion promo with
          | some e =>
              ⟨[Event.validateProject project, Event.getStage project stageName,
                Event.getQualifiedFreight project freightName candidates,
                Event.createPromotion promo],
                none, some ⟨Code.internal, e⟩⟩
          | none =>
              ⟨[Event.validateProject project, Event.getStage project stageName,
                Event.getQualifiedFreight project freightName candidates,
                Event.createPromotion promo],
                some promo, none⟩

/-- The promotions whose creation a trace attempted, in order. -/
def writesOf (t : List Event) : List Promotion :=
  t.filterMap fun e =>
    match e with
    | Event.createPromotion p => some p
    | _ => none

/-- The candidate sets of the qualification-gate calls in a trace, in
order. -/
def gateCallsOf (t : List Event) : List (List String) :=
  t.filterMap fun e =>
    match e with
    | Event.getQualifiedFreight _ _ cands => some cands
    | _ => none

/-- The namespaces of the stage-listing calls in a trace, in order. -/
def listCallsOf (t : List Event) : List String :=
  t.filterMap fun e =>
    match e with
    | Event.listStages ns => some ns
    | _ => none

lemma validateProjectAndStageNonEmpty_eq_none {project stage : String}
    (hp : project ≠ "") (hs : stage ≠ "") :
    validateProjectAndStageNonEmpty project stage = none := by
  simp [validateProjectAndStageNonEmpty, hp, hs]

lemma promoteLoop_events (c : Collab) (freight : String) (l : List Stage) :
    (promoteLoop c freight l).events =
      l.map (fun sub => Event.createPromotion (NewPromotion sub freight)) := by
  induction l with
  | nil => simp [promoteLoop]
  | cons sub rest ih =>
      cases h : c.createPromotion (NewPromotion sub freight) with
      | none => simp [promoteLoop, h, ih]
      | some e => simp [promoteLoop, h, ih]

lemma promoteLoop_promos (c : Collab) (freight : String) (l : List Stage) :
    (promoteLoop c freight l).promos =
      (l.filter (fun sub => (c.createPromotion (NewPromotion sub freight)).isNone)).map
        (fun sub => NewPromotion sub freight) := by
  induction l with
  | nil => simp [promoteLoop]
  | cons sub rest ih =>
      cases h : c.createPromotion (NewPromotion sub freight) with
      | none => simp [promoteLoop, h, ih, List.filter_cons]
      | some e => simp [promoteLoop, h, ih, List.filter_cons]

lemma promoteLoop_errs (c : Collab) (freight : String) (l : List Stage) :
    (promoteLoop c freight l).errs =
      l.filterMap (fun sub => c.createPromotion (NewPromotion sub freight)) := by
  induction l with
  | nil => simp [promoteLoop]
  | cons sub rest ih =>
      cases h : c.createPromotion (NewPromotion sub freight) with
      | none => simp [promoteLoop, h, ih]
      | some e => simp [promoteLoop, h, ih]

lemma promoteLoop_length (c : Collab) (freight : String) (l : List Stage) :
    (promoteLoop c freight l).promos.length + (promoteLoop c freight l).errs.length
      = l.length := by
  induction l with
  | nil => simp [promoteLoop]
  | cons sub rest ih =>
      cases h : c.createPromotion (NewPromotion sub freight) with
      | none => simp [promoteLoop, h]; omega
      | some e => simp [promoteLoop, h]; omega

/-- The three collaborator reads every fan-out-reaching
`PromoteSubscribers` call performs before the subscriber check, plus the
listing, in order. -/
def preEvents (project stageName freightName : String) : List Event :=
  [Event.validateProject project, Event.getStage project stageName,
   Event.getQualifiedFreight project freightName [stageName],
   Event.listStages project]

lemma promoteSubscribers_gateAbsent (c : Collab)
    (project stageName freightName : String)
    (hp : project ≠ "") (hs : stageName ≠ "")
    (hv : c.validateProject project = none)
    (st : Stage) (hg : c.getStage project stageName = .ok (some st))
    (hq : c.getQualifiedFreight project freightName [stageName] = .ok none) :
    promoteSubscribers c project stageName freightName =
      ⟨[Event.validateProject project, Event.getStage project stageName,
        Event.getQualifiedFreight project freightName [stageName]],
        none, some ⟨Code.notFound, noQualifiedFreightMsg freightName project⟩⟩ := by
  simp [promoteSubscribers, validateProjectAndStageNonEmpty_eq_none hp hs, hv, hg, hq]

lemma promoteSubscribers_noSubs (c : Collab)
    (project stageName freightName : String)
    (hp : project ≠ "") (hs : stageName ≠ "")
    (hv : c.validateProject project = none)
    (st : Stage) (hg : c.getStage project stageName = .ok (some st))
    (fr : Freight)
    (hq : c.getQualifiedFreight project freightName [stageName] = .ok (some fr))
    (L : List Stage) (hl : c.listStages project = .ok L)
    (hsub : findStageSubscribers st L = []) :
    promoteSubscribers c project stageName freightName =
      ⟨preEvents project stageName freightName, none,
        some ⟨Code.notFound, noSubscribersMsg stageName⟩⟩ := by
  simp [promoteSubscribers, validateProjectAndStageNonEmpty_eq_none hp hs, hv, hg, hq,
    hl, hsub, preEvents]

lemma promoteSubscribers_fanout (c : Collab)
    (project stageName freightName : String)
    (hp : project ≠ "") (hs : stageName ≠ "")
    (hv : c.validateProject project = none)
    (st : Stage) (hg : c.getStage project stageName = .ok (some st))
    (fr : Freight)
    (hq : c.getQualifiedFreight project freightName [stageName] = .ok (some fr))
    (L : List Stage) (hl : c.listStages project = .ok L)
    (hne : findStageSubscribers st L ≠ []) :
    promoteSubscribers c project stageName freightName =
      ⟨preEvents project stageName freightName
          ++ (promoteLoop c freightName (findStageSubscribers st L)).events,
        some (promoteLoop c freightName (findStageSubscribers st L)).promos,
        if (promoteLoop c freightName (findStageSubscribers st L)).errs = [] then none
        else some ⟨Code.internal,
          String.intercalate "\n"
            (promoteLoop c freightName (findStageSubscribers st L)).errs⟩⟩ := by
  simp only [promoteSubscribers, validateProjectAndStageNonEmpty_eq_none hp hs, hv, hg,
    hq, hl, preEvents]
  rw [if_neg hne]
  by_cases he : (promoteLoop c freightName (findStageSubscribers st L)).errs = []
  · simp [he]
  · simp [he]

/-! ### Concrete fixtures used by witnesses and counterexamples -/

/-- A stage with no subscription block. -/
def stageA : Stage := ⟨"p", "A", none⟩

/-- A stage subscribed to `stageA`. -/
def stageB : Stage := ⟨"p", "B", some ⟨[⟨"A"⟩]⟩⟩

/-- Another stage subscribed to `stageA`. -/
def stageC : Stage := ⟨"p", "C", some ⟨[⟨"A"⟩]⟩⟩

/-- A stage whose subscription list names `stageA` twice. -/
def stageDup : Stage := ⟨"p", "X", some ⟨[⟨"A"⟩, ⟨"A"⟩]⟩⟩

/-- A stage that lists itself as an upstream. -/
def stageSelf : Stage := ⟨"p", "S", some ⟨[⟨"S"⟩]⟩⟩

/-! ### Claim theorems -/

/-- C4: a stage `x` is returned by `findStageSubscribers` for stage `a`
iff `x` is in the listing and `x`'s subscription list contains an
upstream entry named exactly `a.name`; membership is invariant under
reordering of the listing; and a stage with a nil or empty subscription
list is never returned. -/
theorem C4_subscriber_membership (a x : Stage) (l l' : List Stage)
    (hperm : List.Perm l l') :
    (x ∈ findStageSubscribers a l ↔
      x ∈ l ∧ ∃ subs, x.subscriptions = some subs ∧
        ∃ u ∈ subs.upstreamStages, u.name = a.name)
    ∧ (x ∈ findStageSubscribers a l ↔ x ∈ findStageSubscribers a l')
    ∧ ((x.subscriptions = none ∨ x.subscriptions = some ⟨[]⟩) →
        x ∉ findStageSubscribers a l) := by
  have hchar : ∀ m : List Stage, x ∈ findStageSubscribers a m ↔
      x ∈ m ∧ ∃ subs, x.subscriptions = some subs ∧
        ∃ u ∈ subs.upstreamStages, u.name = a.name := by
    intro m
    rw [mem_findStageSubscribers]
    refine and_congr_right fun _ => ?_
    cases hs : x.subscriptions with
    | none => simp [hasUpstreamNamed, hs]
    | some subs => simp [hasUpstreamNamed, hs, List.any_eq_true]
  refine ⟨hchar l, ?_, ?_⟩
  · rw [hchar l, hchar l', hperm.mem_iff]
  · rintro (hs | hs) hmem
    · obtain ⟨_, ⟨subs, hsubs, _⟩⟩ := (hchar l).mp hmem
      simp [hs] at hsubs
    · obtain ⟨_, ⟨subs, hsubs, ⟨u, hu, _⟩⟩⟩ := (hchar l).mp hmem
      rw [hs] at hsubs
      cases hsubs
      simp at hu

/-- Witness for C4 at a concrete listing and its reversal. -/
theorem C4_subscriber_membership_witness :
    List.Perm [stageB, stageC] [stageC, stageB]
    ∧ ((stageB ∈ findStageSubscribers stageA [stageB, stageC] ↔
          stageB ∈ [stageB, stageC] ∧ ∃ subs, stageB.subscriptions = some subs ∧
            ∃ u ∈ subs.upstreamStages, u.name = stageA.name)
      ∧ (stageB ∈ findStageSubscribers stageA [stageB, stageC] ↔
          stageB ∈ findStageSubscribers stageA [stageC, stageB])
      ∧ ((stageB.subscriptions = none ∨ stageB.subscriptions = some ⟨[]⟩) →
          stageB ∉ findStageSubscribers stageA [stageB, stageC])) :=
  ⟨List.Perm.swap _ _ _,
    C4_subscriber_membership stageA stageB [stageB, stageC] [stageC, stageB]
      (List.Perm.swap _ _ _)⟩

/-- C7 counterexample: the listing `[stageDup]` has no repeated stage,
yet `stageDup` — whose subscription list names the target twice —
appears twice in the result. -/
theorem C7_count_counterexample :
    List.Nodup [stageDup]
    ∧ ¬ (findStageSubscribers stageA [stageDup]).count stageDup ≤ 1 := by
  constructor
  · simp
  · decide

/-- C7 amended: in a duplicate-free listing, a stage appears in the
result once per upstream entry bearing the target stage's name — so at
most once exactly when it has at most one matching entry, and more than
once when it has several. -/
theorem C7_count_amended (a x : Stage) (l : List Stage) (hnd : l.Nodup) :
    (findStageSubscribers a l).count x =
      (if x ∈ l then upstreamHits a.name x else 0) := by
  rw [count_findStageSubscribers]
  by_cases hx : x ∈ l
  · rw [if_pos hx, List.count_eq_one_of_mem hnd hx, Nat.one_mul]
  · rw [if_neg hx, List.count_eq_zero_of_not_mem hx, Nat.zero_mul]

/-- Witness for the amended C7 at the duplicate-entry fixture. -/
theorem C7_count_amended_witness :
    List.Nodup [stageDup]
    ∧ (findStageSubscribers stageA [stageDup]).count stageDup =
        (if stageDup ∈ [stageDup] then upstreamHits stageA.name stageDup else 0) :=
  ⟨by simp, C7_count_amended stageA stageDup [stageDup] (by simp)⟩

/-- C8: a stage that lists its own name among its upstream entries is
returned by `findStageSubscribers` as its own subscriber whenever it is
in the listing. -/
theorem C8_self_subscriber (s : Stage) (l : List Stage) (subs : Subscriptions)
    (hmem : s ∈ l) (hsubs : s.subscriptions = some subs)
    (hself : ∃ u ∈ subs.upstreamStages, u.name = s.name) :
    s ∈ findStageSubscribers s l := by
  refine mem_findStageSubscribers.mpr ⟨hmem, ?_⟩
  obtain ⟨u, hu, hname⟩ := hself
  simp [hasUpstreamNamed, hsubs, List.any_eq_true]
  exact ⟨u, hu, hname⟩

/-- Witness for C8 at the self-subscribing fixture. -/
theorem C8_self_subscriber_witness :
    stageSelf ∈ [stageSelf]
    ∧ stageSelf.subscriptions = some ⟨[⟨"S"⟩]⟩
    ∧ (∃ u ∈ (⟨[⟨"S"⟩]⟩ : Subscriptions).upstreamStages, u.name = stageSelf.name)
    ∧ stageSelf ∈ findStageSubscribers stageSelf [stageSelf] :=
  ⟨by simp, rfl, ⟨⟨"S"⟩, by simp, rfl⟩,
    C8_self_subscriber stageSelf [stageSelf] ⟨[⟨"S"⟩]⟩ (by simp) rfl
      ⟨⟨"S"⟩, by simp, rfl⟩⟩

lemma writesOf_append (t1 t2 : List Event) :
    writesOf (t1 ++ t2) = writesOf t1 ++ writesOf t2 := by
  simp [writesOf]

lemma writesOf_createEvents (f : String) (l : List Stage) :
    writesOf (l.map (fun sub => Event.createPromotion (NewPromotion sub f))) =
      l.map (fun sub => NewPromotion sub f) := by
  induction l with
  | nil => simp [writesOf]
  | cons sub rest ih => simp [writesOf] at ih ⊢; exact ih

lemma writesOf_preEvents (project stageName freightName : String) :
    writesOf (preEvents project stageName freightName) = [] := by
  simp [writesOf, preEvents]

lemma gateCallsOf_append (t1 t2 : List Event) :
    gateCallsOf (t1 ++ t2) = gateCallsOf t1 ++ gateCallsOf t2 := by
  simp [gateCallsOf]

lemma gateCallsOf_createEvents (f : String) (l : List Stage) :
    gateCallsOf (l.map (fun sub => Event.createPromotion (NewPromotion sub f))) = [] := by
  induction l with
  | nil => simp [gateCallsOf]
  | cons sub rest ih => simp [gateCallsOf]

lemma listCallsOf_createEvents (f : String) (l : List Stage) :
    listCallsOf (l.map (fun sub => Event.createPromotion (NewPromotion sub f))) = [] := by
  induction l with
  | nil => simp [listCallsOf]
  | cons sub rest ih => simp [listCallsOf]

/-- C1: when a `PromoteSubscribers` call reaches the fan-out, a write is
attempted for every subscriber regardless of other writes' outcomes; if
no write fails the full promotion list is returned with no error, and if
some write fails the successfully created promotions are returned
together with a single `Internal` error joining every individual write
failure. -/
theorem C1_fanout_aggregation (c : Collab)
    (project stageName freightName : String)
    (hp : project ≠ "") (hs : stageName ≠ "")
    (hv : c.validateProject project = none)
    (st : Stage) (hg : c.getStage project stageName = .ok (some st))
    (fr : Freight)
    (hq : c.getQualifiedFreight project freightName [stageName] = .ok (some fr))
    (L : List Stage) (hl : c.listStages project = .ok L)
    (hne : findStageSubscribers st L ≠ []) :
    (∀ sub ∈ findStageSubscribers st L,
      Event.createPromotion (NewPromotion sub freightName) ∈
        (promoteSubscribers c project stageName freightName).trace)
    ∧ ((promoteLoop c freightName (findStageSubscribers st L)).errs = [] →
        (promoteSubscribers c project stageName freightName).promotions =
          some ((findStageSubscribers st L).map (fun sub => NewPromotion sub freightName))
        ∧ (promoteSubscribers c project stageName freightName).err = none)
    ∧ ((promoteLoop c freightName (findStageSubscribers st L)).errs ≠ [] →
        (promoteSubscribers c project stageName freightName).promotions =
          some (promoteLoop c freightName (findStageSubscribers st L)).promos
        ∧ (promoteSubscribers c project stageName freightName).err =
            some ⟨Code.internal, String.intercalate "\n"
              (promoteLoop c freightName (findStageSubscribers st L)).errs⟩) := by
  rw [promoteSubscribers_fanout c project stageName freightName hp hs hv st hg fr hq L
    hl hne]
  refine ⟨?_, ?_, ?_⟩
  · intro sub hsub
    simp only [List.mem_append, promoteLoop_events]
    right
    exact List.mem_map_of_mem _ hsub
  · intro he
    rw [promoteLoop_promos]
    have hall : ∀ sub ∈ findStageSubscribers st L,
        (c.createPromotion (NewPromotion sub freightName)).isNone = true := by
      rw [promoteLoop_errs] at he
      intro sub hsub
      simp [List.filterMap_eq_nil_iff] at he
      simp [he sub hsub]
    rw [List.filter_eq_self.mpr hall]
    simp [he]
  · intro he
    simp [he]

/-- Witness for C1: stage `A` with subscribers `{B, C}` where `B`'s
write fails and `C`'s succeeds. -/
def collabBC : Collab where
  validateProject := fun _ => none
  getStage := fun _ _ => .ok (some stageA)
  listStages := fun _ => .ok [stageA, stageB, stageC]
  getQualifiedFreight := fun _ _ _ => .ok (some ⟨"f"⟩)
  createPromotion := fun p => if p.stage = "B" then some "boom-B" else none

theorem C1_fanout_aggregation_witness :
    ((promoteLoop collabBC "f" (findStageSubscribers stageA [stageA, stageB, stageC])).errs ≠ [] →
      (promoteSubscribers collabBC "p" "A" "f").promotions =
        some (promoteLoop collabBC "f" (findStageSubscribers stageA [stageA, stageB, stageC])).promos
      ∧ (promoteSubscribers collabBC "p" "A" "f").err =
          some ⟨Code.internal, String.intercalate "\n"
            (promoteLoop collabBC "f" (findStageSubscribers stageA [stageA, stageB, stageC])).errs⟩)
    ∧ (promoteSubscribers collabBC "p" "A" "f").promotions =
        some [NewPromotion stageC "f"]
    ∧ (promoteSubscribers collabBC "p" "A" "f").err =
        some ⟨Code.internal, "boom-B"⟩ :=
  ⟨(C1_fanout_aggregation collabBC "p" "A" "f" (by decide) (by decide) rfl stageA rfl
      ⟨"f"⟩ rfl [stageA, stageB, stageC] rfl (by decide)).2.2,
    by decide, by decide⟩

/-- C9: a fan-out-reaching `PromoteSubscribers` call attempts exactly
one promotion write per subscriber, in subscriber order, each promotion
built from the corresponding subscriber and the requested freight; the
returned promotions are those of the succeeding subscribers in order,
and the number of returned promotions plus the number of joined
per-subscriber errors equals the number of subscribers. -/
theorem C9_fanout_accounting (c : Collab)
    (project stageName freightName : String)
    (hp : project ≠ "") (hs : stageName ≠ "")
    (hv : c.validateProject project = none)
    (st : Stage) (hg : c.getStage project stageName = .ok (some st))
    (fr : Freight)
    (hq : c.getQualifiedFreight project freightName [stageName] = .ok (some fr))
    (L : List Stage) (hl : c.listStages project = .ok L)
    (hne : findStageSubscribers st L ≠ []) :
    writesOf (promoteSubscribers c project stageName freightName).trace =
      (findStageSubscribers st L).map (fun sub => NewPromotion sub freightName)
    ∧ (promoteSubscribers c project stageName freightName).promotions =
        some (((findStageSubscribers st L).filter
          (fun sub => (c.createPromotion (NewPromotion sub freightName)).isNone)).map
            (fun sub => NewPromotion sub freightName))
    ∧ (promoteLoop c freightName (findStageSubscribers st L)).promos.length
        + (promoteLoop c freightName (findStageSubscribers st L)).errs.length
        = (findStageSubscribers st L).length := by
  rw [promoteSubscribers_fanout c project stageName freightName hp hs hv st hg fr hq L
    hl hne]
  refine ⟨?_, ?_, promoteLoop_length c freightName _⟩
  · rw [writesOf_append, writesOf_preEvents, promoteLoop_events,
      writesOf_createEvents, List.nil_append]
  · simp [promoteLoop_promos]

/-- Witness for C9 at the `{B, C}` fixture. -/
theorem C9_fanout_accounting_witness :
    writesOf (promoteSubscribers collabBC "p" "A" "f").trace =
      (findStageSubscribers stageA [stageA, stageB, stageC]).map
        (fun sub => NewPromotion sub "f")
    ∧ (promoteSubscribers collabBC "p" "A" "f").promotions =
        some (((findStageSubscribers stageA [stageA, stageB, stageC]).filter
          (fun sub => (collabBC.createPromotion (NewPromotion sub "f")).isNone)).map
            (fun sub => NewPromotion sub "f"))
    ∧ (promoteLoop collabBC "f" (findStageSubscribers stageA [stageA, stageB, stageC])).promos.length
        + (promoteLoop collabBC "f" (findStageSubscribers stageA [stageA, stageB, stageC])).errs.length
        = (findStageSubscribers stageA [stageA, stageB, stageC]).length :=
  C9_fanout_accounting collabBC "p" "A" "f" (by decide) (by decide) rfl stageA rfl
    ⟨"f"⟩ rfl [stageA, stageB, stageC] rfl (by decide)

lemma gateCallsOf_preEvents (project stageName freightName : String) :
    gateCallsOf (preEvents project stageName freightName) = [[stageName]] := by
  simp [gateCallsOf, preEvents]

/-- C3: a `PromoteSubscribers` call that passes validation and finds the
stage sends the qualification gate exactly one candidate set, the
singleton of the named stage; and when the gate returns absent the call
fails `NotFound` with a message containing the freight name and the
project namespace, with no promotion write attempted. -/
theorem C3_singleton_candidates (c : Collab)
    (project stageName freightName : String)
    (hp : project ≠ "") (hs : stageName ≠ "")
    (hv : c.validateProject project = none)
    (st : Stage) (hg : c.getStage project stageName = .ok (some st)) :
    gateCallsOf (promoteSubscribers c project stageName freightName).trace = [[stageName]]
    ∧ (c.getQualifiedFreight project freightName [stageName] = .ok none →
        (promoteSubscribers c project stageName freightName).err =
          some ⟨Code.notFound, noQualifiedFreightMsg freightName project⟩
        ∧ (∃ x y z, noQualifiedFreightMsg freightName project =
            x ++ freightName ++ y ++ project ++ z)
        ∧ writesOf (promoteSubscribers c project stageName freightName).trace = []
        ∧ (promoteSubscribers c project stageName freightName).promotions = none) := by
  have hvs := validateProjectAndStageNonEmpty_eq_none hp hs
  constructor
  · cases hq : c.getQualifiedFreight project freightName [stageName] with
    | error e => simp [promoteSubscribers, hvs, hv, hg, hq, gateCallsOf]
    | ok ofr =>
        cases ofr with
        | none => simp [promoteSubscribers, hvs, hv, hg, hq, gateCallsOf]
        | some fr =>
            cases hl : c.listStages project with
            | error e => simp [promoteSubscribers, hvs, hv, hg, hq, hl, gateCallsOf]
            | ok L =>
                by_cases hsub : findStageSubscribers st L = []
                · rw [promoteSubscribers_noSubs c project stageName freightName hp hs hv
                    st hg fr hq L hl hsub]
                  exact gateCallsOf_preEvents project stageName freightName
                · rw [promoteSubscribers_fanout c project stageName freightName hp hs hv
                    st hg fr hq L hl hsub]
                  rw [gateCallsOf_append, gateCallsOf_preEvents, promoteLoop_events,
                    gateCallsOf_createEvents, List.append_nil]
  · intro hq
    rw [promoteSubscribers_gateAbsent c project stageName freightName hp hs hv st hg hq]
    refine ⟨rfl, ?_, ?_, rfl⟩
    · refine ⟨"no qualified Freight \"", "\" found in namespace \"", "\"", ?_⟩
      simp [noQualifiedFreightMsg, String.append_assoc]
    · simp [writesOf]

/-- Witness for C3: gate absent for a concrete, otherwise healthy
collaborator set. -/
def collabUnqualified : Collab where
  validateProject := fun _ => none
  getStage := fun _ _ => .ok (some stageA)
  listStages := fun _ => .ok []
  getQualifiedFreight := fun _ _ _ => .ok none
  createPromotion := fun _ => none

theorem C3_singleton_candidates_witness :
    gateCallsOf (promoteSubscribers collabUnqualified "p" "A" "f").trace = [["A"]]
    ∧ ((promoteSubscribers collabUnqualified "p" "A" "f").err =
          some ⟨Code.notFound, noQualifiedFreightMsg "f" "p"⟩
        ∧ (∃ x y z, noQualifiedFreightMsg "f" "p" = x ++ "f" ++ y ++ "p" ++ z)
        ∧ writesOf (promoteSubscribers collabUnqualified "p" "A" "f").trace = []
        ∧ (promoteSubscribers collabUnqualified "p" "A" "f").promotions = none) :=
  ⟨(C3_singleton_candidates collabUnqualified "p" "A" "f" (by decide) (by decide) rfl
      stageA rfl).1,
    (C3_singleton_candidates collabUnqualified "p" "A" "f" (by decide) (by decide) rfl
      stageA rfl).2 rfl⟩

/-- C5: a `PromoteSubscribers` call whose stage exists and whose freight
is qualified, but whose subscriber resolution yields an empty list,
fails `NotFound` with a message containing "has no subscribers", returns
a nil response, and attempts zero promotion writes. -/
theorem C5_no_subscribers (c : Collab)
    (project stageName freightName : String)
    (hp : project ≠ "") (hs : stageName ≠ "")
    (hv : c.validateProject project = none)
    (st : Stage) (hg : c.getStage project stageName = .ok (some st))
    (fr : Freight)
    (hq : c.getQualifiedFreight project freightName [stageName] = .ok (some fr))
    (L : List Stage) (hl : c.listStages project = .ok L)
    (hsub : findStageSubscribers st L = []) :
    (promoteSubscribers c project stageName freightName).err =
      some ⟨Code.notFound, noSubscribersMsg stageName⟩
    ∧ (∃ x y, noSubscribersMsg stageName = x ++ "has no subscribers" ++ y)
    ∧ writesOf (promoteSubscribers c project stageName freightName).trace = []
    ∧ (promoteSubscribers c project stageName freightName).promotions = none := by
  rw [promoteSubscribers_noSubs c project stageName freightName hp hs hv st hg fr hq L
    hl hsub]
  refine ⟨rfl, ?_, writesOf_preEvents project stageName freightName, rfl⟩
  refine ⟨"Stage \"" ++ stageName ++ "\" ", "", ?_⟩
  have h : ("\" has no subscribers" : String) = "\" " ++ "has no subscribers" := by
    decide
  simp only [noSubscribersMsg]
  rw [h]
  simp [String.append_assoc]

/-- Witness for C5: qualified freight over a stage with an empty
subscriber resolution. -/
def collabNoSubs : Collab where
  validateProject := fun _ => none
  getStage := fun _ _ => .ok (some stageA)
  listStages := fun _ => .ok [stageA]
  getQualifiedFreight := fun _ _ _ => .ok (some ⟨"f"⟩)
  createPromotion := fun _ => none

theorem C5_no_subscribers_witness :
    (promoteSubscribers collabNoSubs "p" "A" "f").err =
      some ⟨Code.notFound, noSubscribersMsg "A"⟩
    ∧ (∃ x y, noSubscribersMsg "A" = x ++ "has no subscribers" ++ y)
    ∧ writesOf (promoteSubscribers collabNoSubs "p" "A" "f").trace = []
    ∧ (promoteSubscribers collabNoSubs "p" "A" "f").promotions = none :=
  C5_no_subscribers collabNoSubs "p" "A" "f" (by decide) (by decide) rfl stageA rfl
    ⟨"f"⟩ rfl [stageA] rfl (by decide)

/-- C10: `PromoteSubscribers` consults the qualification gate before
resolving subscribers — when the gate returns absent the call fails
`NotFound` with the no-qualified-Freight message, the namespace listing
is never invoked, and no write is attempted, whatever the listing would
have returned. -/
theorem C10_gate_before_resolution (c : Collab)
    (project stageName freightName : String)
    (hp : project ≠ "") (hs : stageName ≠ "")
    (hv : c.validateProject project = none)
    (st : Stage) (hg : c.getStage project stageName = .ok (some st))
    (hq : c.getQualifiedFreight project freightName [stageName] = .ok none) :
    (promoteSubscribers c project stageName freightName).err =
      some ⟨Code.notFound, noQualifiedFreightMsg freightName project⟩
    ∧ listCallsOf (promoteSubscribers c project stageName freightName).trace = []
    ∧ writesOf (promoteSubscribers c project stageName freightName).trace = []
    ∧ (promoteSubscribers c project stageName freightName).promotions = none := by
  rw [promoteSubscribers_gateAbsent c project stageName freightName hp hs hv st hg hq]
  exact ⟨rfl, by simp [listCallsOf], by simp [writesOf], rfl⟩

/-- Witness for C10: unqualified freight over a stage that also has zero
subscribers — the freight error is the one reported. -/
theorem C10_gate_before_resolution_witness :
    (promoteSubscribers collabUnqualified "p" "A" "g").err =
      some ⟨Code.notFound, noQualifiedFreightMsg "g" "p"⟩
    ∧ listCallsOf (promoteSubscribers collabUnqualified "p" "A" "g").trace = []
    ∧ writesOf (promoteSubscribers collabUnqualified "p" "A" "g").trace = []
    ∧ (promoteSubscribers collabUnqualified "p" "A" "g").promotions = none :=
  C10_gate_before_resolution collabUnqualified "p" "A" "g" (by decide) (by decide) rfl
    stageA rfl rfl

/-- C2 counterexample: with non-empty project and stage but an empty
freight name, `PromoteSubscribers` does invoke a collaborator (the
project validator appears in the trace) and fails `NotFound` at the
qualification gate, not `InvalidArgument` — the input validation only
covers project and stage. -/
theorem C2_empty_freight_counterexample :
    Event.validateProject "p" ∈ (promoteSubscribers collabUnqualified "p" "A" "").trace
    ∧ (promoteSubscribers collabUnqualified "p" "A" "").err =
        some ⟨Code.notFound, noQualifiedFreightMsg "" "p"⟩ := by
  constructor
  · decide
  · decide

/-- C2 amended: an empty project or an empty stage name makes both
operations fail `InvalidArgument` with no collaborator invoked; an empty
freight name alone does not trigger input validation. -/
theorem C2_empty_inputs_amended (c : Collab) (p s f : String)
    (h : p = "" ∨ s = "") :
    (∃ e, promoteSubscribers c p s f = ⟨[], none, some e⟩
      ∧ e.code = Code.invalidArgument)
    ∧ (∃ e, promoteStage c p s f = ⟨[], none, some e⟩
      ∧ e.code = Code.invalidArgument) := by
  have hval : ∃ e, validateProjectAndStageNonEmpty p s = some e
      ∧ e.code = Code.invalidArgument := by
    rcases h with h | h
    · exact ⟨⟨Code.invalidArgument, "project should not be empty"⟩,
        by simp [validateProjectAndStageNonEmpty, h], rfl⟩
    · by_cases hp : p = ""
      · exact ⟨⟨Code.invalidArgument, "project should not be empty"⟩,
          by simp [validateProjectAndStageNonEmpty, hp], rfl⟩
      · exact ⟨⟨Code.invalidArgument, "stage should not be empty"⟩,
          by simp [validateProjectAndStageNonEmpty, hp, h], rfl⟩
  obtain ⟨e, he, hcode⟩ := hval
  exact ⟨⟨e, by simp [promoteSubscribers, he], hcode⟩,
    ⟨e, by simp [promoteStage, he], hcode⟩⟩

/-- Witness for the amended C2 at an empty project. -/
theorem C2_empty_inputs_amended_witness :
    (("" : String) = "" ∨ ("s" : String) = "")
    ∧ ((∃ e, promoteSubscribers collabUnqualified "" "s" "f" = ⟨[], none, some e⟩
        ∧ e.code = Code.invalidArgument)
      ∧ (∃ e, promoteStage collabUnqualified "" "s" "f" = ⟨[], none, some e⟩
        ∧ e.code = Code.invalidArgument)) :=
  ⟨Or.inl rfl, C2_empty_inputs_amended collabUnqualified "" "s" "f" (Or.inl rfl)⟩

/-- C6: a validated `PromoteStage` call that finds the stage sends the
qualification gate exactly one candidate set, the target stage's own
name followed by its declared upstream stage names; consequently a
freight the gate qualifies for that set — e.g. only for one upstream —
lets the call succeed once the write goes through. -/
theorem C6_promote_stage_candidates (c : Collab)
    (project stageName freightName : String)
    (hp : project ≠ "") (hs : stageName ≠ "")
    (hv : c.validateProject project = none)
    (st : Stage) (hg : c.getStage project stageName = .ok (some st)) :
    gateCallsOf (promoteStage c project stageName freightName).trace =
      [stageName :: upstreamNames st]
    ∧ (∀ fr : Freight,
        c.getQualifiedFreight project freightName (stageName :: upstreamNames st) =
          .ok (some fr) →
        c.createPromotion (NewPromotion st freightName) = none →
        (promoteStage c project stageName freightName).promotion =
          some (NewPromotion st freightName)
        ∧ (promoteStage c project stageName freightName).err = none) := by
  have hvs := validateProjectAndStageNonEmpty_eq_none hp hs
  constructor
  · cases hq : c.getQualifiedFreight project freightName (stageName :: upstreamNames st) with
    | error e => simp [promoteStage, hvs, hv, hg, hq, gateCallsOf]
    | ok ofr =>
        cases ofr with
        | none => simp [promoteStage, hvs, hv, hg, hq, gateCallsOf]
        | some fr =>
            cases hc : c.createPromotion (NewPromotion st freightName) with
            | none => simp [promoteStage, hvs, hv, hg, hq, hc, gateCallsOf]
            | some e => simp [promoteStage, hvs, hv, hg, hq, hc, gateCallsOf]
  · intro fr hq hc
    simp [promoteStage, hvs, hv, hg, hq, hc]

/-- Witness for C6: a stage with upstreams `{U1, U2}` and a gate that
qualifies the freight only when `U2` is among the candidates. -/
def stageT : Stage := ⟨"p", "T", some ⟨[⟨"U1"⟩, ⟨"U2"⟩]⟩⟩

def collabU2 : Collab where
  validateProject := fun _ => none
  getStage := fun _ _ => .ok (some stageT)
  listStages := fun _ => .ok []
  getQualifiedFreight := fun _ _ cands =>
    .ok (if cands.contains "U2" then some ⟨"f"⟩ else none)
  createPromotion := fun _ => none

theorem C6_promote_stage_candidates_witness :
    gateCallsOf (promoteStage collabU2 "p" "T" "f").trace = [["T", "U1", "U2"]]
    ∧ ((promoteStage collabU2 "p" "T" "f").promotion =
        some (NewPromotion stageT "f")
      ∧ (promoteStage collabU2 "p" "T" "f").err = none) :=
  ⟨(C6_promote_stage_candidates collabU2 "p" "T" "f" (by decide) (by decide) rfl stageT
      rfl).1,
    (C6_promote_stage_candidates collabU2 "p" "T" "f" (by decide) (by decide) rfl stageT
      rfl).2 ⟨"f"⟩ rfl rfl⟩

end Kargo
